import Mathlib

/-
Verification of the AttA2C training core (src/src/train.py, class Runner).

Scalar tensors are modelled as dual numbers over the rationals: `val` is the
tensor value and `der` is its derivative with respect to one designated
network parameter (forward-mode seed).  PyTorch `detach` zeroes `der`, so the
dual model makes gradient-flow statements decidable.  Tensors appearing in
the losses are flattened to lists of duals; `mean` averages over the list.
`F.cross_entropy` is an external library primitive and is passed in as an
abstract function producing a dual result.

The control flow of Runner.train / Runner.episode_rollout is modelled as the
list of observable calls (events) the loop performs, in program order.  A
Python `NameError` (the unbound loop variable when rollout_size = 0) is
modelled as `Option.none`.
-/

namespace AttA2C

/-- Dual number: a scalar value together with its derivative seed. -/
structure Dual where
  val : ℚ
  der : ℚ
deriving DecidableEq, Repr

def Dual.add (a b : Dual) : Dual := ⟨a.val + b.val, a.der + b.der⟩

def Dual.sub (a b : Dual) : Dual := ⟨a.val - b.val, a.der - b.der⟩

/-- Multiplication by a plain Python float constant (carries no gradient). -/
def Dual.scale (c : ℚ) (a : Dual) : Dual := ⟨c * a.val, c * a.der⟩

/-- Tensor.pow(2) on a scalar entry, with the product rule. -/
def Dual.pow2 (a : Dual) : Dual := ⟨a.val * a.val, 2 * a.val * a.der⟩

/-- Tensor.detach(): same value, cut from the computation graph. -/
def Dual.detach (a : Dual) : Dual := ⟨a.val, 0⟩

/-- Tensor.mean() over a flattened tensor. -/
def dmean (xs : List Dual) : Dual :=
  ⟨(xs.map Dual.val).sum / xs.length, (xs.map Dual.der).sum / xs.length⟩

/-- F.mse_loss(input, target) with the default mean reduction. -/
def mse_loss (input target : List Dual) : Dual :=
  dmean ((List.zipWith Dual.sub input target).map Dual.pow2)

/-- Runner.a2c_loss (train.py lines 107-110):
policy_loss + value_coeff * value_loss - entropy_coeff * entropy. -/
def a2c_loss (value_coeff entropy_coeff : ℚ)
    (entropy policy_loss value_loss : Dual) : Dual :=
  (policy_loss.add (Dual.scale value_coeff value_loss)).sub
    (Dual.scale entropy_coeff entropy)

/-- The forward term of Runner.icm_loss (train.py line 145):
loss_fwd = F.mse_loss(feature_preds, features).  Note the target is the
`features` argument, which at the call site (line 71) is the ICM module's
own feature output, and neither side is detached. -/
def loss_fwd (features feature_preds : List Dual) : Dual :=
  mse_loss feature_preds features

/-- Runner.icm_loss (train.py lines 141-151): loss_fwd + loss_inv, where
loss_inv = F.cross_entropy(action_preds, actions) is an external library
primitive, supplied here as an abstract function. -/
def icm_loss (cross_entropy : List ℚ → List ℤ → Dual)
    (features feature_preds : List Dual)
    (action_preds : List ℚ) (actions : List ℤ) : Dual :=
  (loss_fwd features feature_preds).add (cross_entropy action_preds actions)

/-- The separately subtracted curiosity term (train.py lines 65-66):
(storage.features[1:] - feature_pred.detach()).pow(2).mean().
The prediction is detached; the buffer features are not. -/
def curiosity_loss (storage_features_tail feature_pred : List Dual) : Dual :=
  dmean ((List.zipWith Dual.sub storage_features_tail
    (feature_pred.map Dual.detach)).map Dual.pow2)

/-- The total objective assembled in Runner.train (lines 68-72):
a2c_loss + icm_loss - curiosity_coeff.value * curiosity_loss. -/
def train_loss (value_coeff entropy_coeff curiosity_coeff_value : ℚ)
    (cross_entropy : List ℚ → List ℤ → Dual)
    (entropy policy_loss value_loss : Dual)
    (storage_features_tail feature feature_pred : List Dual)
    (action_preds : List ℚ) (actions : List ℤ) : Dual :=
  ((a2c_loss value_coeff entropy_coeff entropy policy_loss value_loss).add
      (icm_loss cross_entropy feature feature_pred action_preds actions)).sub
    (Dual.scale curiosity_coeff_value
      (curiosity_loss storage_features_tail feature_pred))

/-- The total objective as the spec's words state it (claim C1):
policy_loss + value_coeff * value_loss - entropy_coeff * entropy
+ forward_loss + inverse_loss - curiosity_coeff * forward_loss,
where the subtracted term reuses the same forward-loss quantity that
appears unweighted inside the curiosity sum. -/
def spec_total_objective (value_coeff entropy_coeff curiosity_coeff_value : ℚ)
    (entropy policy_loss value_loss forward_loss inverse_loss : Dual) : Dual :=
  (((((policy_loss.add (Dual.scale value_coeff value_loss)).sub
      (Dual.scale entropy_coeff entropy)).add forward_loss).add
        inverse_loss).sub
    (Dual.scale curiosity_coeff_value forward_loss))

/-- The forward loss as the spec's words state it (claim C2): mean squared
error between the prediction and the buffer's recorded next-state features,
with the recorded features treated as a fixed (detached) target. -/
def spec_forward_loss (storage_features_tail feature_pred : List Dual) : Dual :=
  mse_loss feature_pred (storage_features_tail.map Dual.detach)

/-! ## Event-trace model of the training loop control flow -/

/-- Observable calls performed by Runner.train / Runner.episode_rollout,
tagged with the time step or coefficient where relevant. -/
inductive Event where
  | envReset : Event
  | getState : ℕ → Event
  | envStep : ℕ → Event
  | logEpisodeRewards : ℕ → Event
  | insertStep : ℕ → Event
  | resetRecurrent : ℕ → Event
  | getStateNoGrad : ℕ → Event
  | writeFeature : ℕ → Event
  | zeroGrad : Event
  | icmForward : Event
  | readCoeff : Event
  | backward : Bool → Event
  | clipGradNorm : Event
  | loggerLog : Event
  | optimizerStep : Event
  | afterUpdate : Event
  | coeffStep : Event
  | envClose : Event
  | loggerSave : Event
  | paramsSave : Event
deriving DecidableEq, Repr

/-- One iteration of the rollout loop body (train.py lines 114-128):
get_action on get_state(step), env.step, log_episode_rewards, insert,
reset_recurrent_buffers(dones). -/
def stepTrace (t : ℕ) : List Event :=
  [Event.getState t, Event.envStep t, Event.logEpisodeRewards t,
   Event.insertStep t, Event.resetRecurrent t]

/-- The event sequence of a successful Runner.episode_rollout with
rollout_size = T (train.py lines 112-139): the loop body for steps
0..T-1, then the no-gradient bootstrap query at get_state(T) and the
feature write into slot T (the loop variable equals T-1 after the loop). -/
def rolloutTrace (T : ℕ) : List Event :=
  (List.range T).flatMap stepTrace ++
    [Event.getStateNoGrad T, Event.writeFeature T]

/-- Runner.episode_rollout: when rollout_size = 0 the loop body never runs,
so `step` at line 135 is an unbound name and Python raises NameError,
modelled as none. -/
def episode_rollout (T : ℕ) : Option (List Event) :=
  if T = 0 then none else some (rolloutTrace T)

/-- The events of one update iteration after the rollout (train.py lines
52-89): zero_grad, the ICM forward pass, the read of
curiosity_coeff.value during loss assembly, backward(retain_graph=False),
gradient clipping, logger.log, optimizer.step, storage.after_update,
curiosity_coeff.step.  The conditional console print (lines 96-98) is
omitted from the event alphabet. -/
def postRolloutTrace : List Event :=
  [Event.zeroGrad, Event.icmForward, Event.readCoeff, Event.backward false,
   Event.clipGradNorm, Event.loggerLog, Event.optimizerStep,
   Event.afterUpdate, Event.coeffStep]

/-- One full update iteration of Runner.train. -/
def updateBlock (T : ℕ) : List Event :=
  rolloutTrace T ++ postRolloutTrace

/-- The closing calls of Runner.train (lines 101-105). -/
def closeTrace : List Event :=
  [Event.envClose, Event.loggerSave, Event.paramsSave]

/-- The full event sequence of Runner.train with rollout_size T and
num_updates U, when it completes. -/
def trainTrace (T U : ℕ) : List Event :=
  Event.envReset :: (List.replicate U (updateBlock T)).flatten ++ closeTrace

/-- Runner.train: raises (none) when some update's rollout raises, i.e.
when T = 0 and at least one update runs. -/
def train (T U : ℕ) : Option (List Event) :=
  if T = 0 ∧ U ≠ 0 then none else some (trainTrace T U)

/-- Selects the index of an insert call. -/
def pickInsert : Event → Option ℕ
  | Event.insertStep t => some t
  | _ => none

/-- Selects the index of a no-gradient agent query. -/
def pickNoGrad : Event → Option ℕ
  | Event.getStateNoGrad t => some t
  | _ => none

/-- Modelled from the spec: RolloutStorage (storage.py) is not under src/.
Per spec section 3 and 4.1, `insert(t, ...)` writes the feature embedding
into feature slot t, and the bootstrap write fills slot T; this selects
the feature slot an event fills. -/
def pickFeature : Event → Option ℕ
  | Event.insertStep t => some t
  | Event.writeFeature t => some t
  | _ => none

/-- Indices of insert calls in a trace. -/
def insertIndices (es : List Event) : List ℕ := es.filterMap pickInsert

/-- Indices of no-gradient agent queries in a trace. -/
def noGradIndices (es : List Event) : List ℕ := es.filterMap pickNoGrad

/-- Feature slots filled by a trace. -/
def featureSlots (es : List Event) : List ℕ := es.filterMap pickFeature

/-- Coefficient reads annotated with how many coefficient steps precede
them: walking the trace with a step counter n, each readCoeff records the
current count, each coeffStep increments it. -/
def coeffReadCounts : List Event → ℕ → List ℕ
  | [], _ => []
  | Event.coeffStep :: es, n => coeffReadCounts es (n + 1)
  | Event.readCoeff :: es, n => n :: coeffReadCounts es n
  | _ :: es, n => coeffReadCounts es n

/-! ## Return / advantage computation (spec-modelled)

RolloutStorage.a2c_loss lives in storage.py, which is not under src/. -/

/-- Modelled from the spec: RolloutStorage.a2c_loss return recursion
(storage.py not under src/).  Input is the list of (reward_t, done_t) for
t = 0..T-1; output is [R_0, ..., R_(T-1)] with
R_t = reward_t + gamma * R_(t+1) * (1 - done_t), seeded with
R_T = final_value. -/
def computeReturns (gamma final_value : ℚ) : List (ℚ × ℚ) → List ℚ
  | [] => []
  | (r, d) :: rest =>
    let tail := computeReturns gamma final_value rest
    (r + gamma * tail.headD final_value * (1 - d)) :: tail

/-- Per-step rollout record used by the a2c loss. -/
structure StepData where
  reward : ℚ
  done : ℚ
  value : ℚ
  log_prob : ℚ
deriving DecidableEq, Repr

/-- Mean of a list of rationals. -/
def qmean (xs : List ℚ) : ℚ := xs.sum / xs.length

/-- Modelled from the spec: RolloutStorage.a2c_loss (storage.py not under
src/).  Advantage A_t = R_t - value_t; policy loss
= -mean(log_prob_t * A_t) (A_t detached, which leaves the value unchanged);
value loss = mean(A_t^2).  Returns (policy_loss, value_loss). -/
def storage_a2c_loss (gamma final_value : ℚ) (steps : List StepData) : ℚ × ℚ :=
  let returns := computeReturns gamma final_value
    (steps.map fun s => (s.reward, s.done))
  let advantages := List.zipWith (fun R s => R - s.value) returns steps
  (-(qmean (List.zipWith (fun s A => s.log_prob * A) steps advantages)),
   qmean (advantages.map fun A => A * A))

/-! ## Runner construction and the seed field -/

/-- The configuration object fields Runner reads. -/
structure Params where
  env_name : String
  num_updates : ℕ
  rollout_size : ℕ
  num_envs : ℕ
  n_stack : ℕ
  value_coeff : ℚ
  entropy_coeff : ℚ
  max_grad_norm : ℚ
  curiosity_coeff_value : ℚ
deriving DecidableEq, Repr

/-- The state Runner.__init__ (train.py lines 15-39) builds: the timestamp,
the stored seed, the cuda flag (torch.cuda.is_available() and is_cuda),
the parameters, and the logger / storage construction arguments. -/
structure Runner where
  timestamp : String
  seed : ℤ
  is_cuda : Bool
  params : Params
  log_dir : String
deriving DecidableEq, Repr

/-- Runner.__init__: stores the seed, computes is_cuda, keeps params. -/
def Runner.init (params : Params) (is_cuda cuda_available : Bool)
    (seed : ℤ) (timestamp log_dir : String) : Runner :=
  { timestamp := timestamp
    seed := seed
    is_cuda := cuda_available && is_cuda
    params := params
    log_dir := log_dir }

/-- The arguments Runner.__init__ passes to the TemporalLogger. -/
def Runner.loggerArgs (r : Runner) : String × String × String :=
  (r.params.env_name, r.timestamp, r.log_dir)

/-- The arguments Runner.__init__ passes to RolloutStorage. -/
def Runner.storageArgs (r : Runner) : ℕ × ℕ × ℕ × Bool :=
  (r.params.rollout_size, r.params.num_envs, r.params.n_stack, r.is_cuda)

/-- The control-flow trace Runner.train performs for this runner. -/
def Runner.trainEvents (r : Runner) : Option (List Event) :=
  train r.params.rollout_size r.params.num_updates

/-! ## Helper lemmas -/

lemma Dual.add_assoc (x y z : Dual) : x.add (y.add z) = (x.add y).add z := by
  simp only [Dual.add, Dual.mk.injEq]
  constructor <;> ring

lemma Dual.detach_detach (a : Dual) : a.detach.detach = a.detach := rfl

lemma detach_comp : (Dual.detach ∘ Dual.detach) = Dual.detach := by
  funext a
  rfl

lemma map_detach_idem (l : List Dual) :
    (l.map Dual.detach).map Dual.detach = l.map Dual.detach := by
  rw [List.map_map, detach_comp]

lemma headD_eq_getD (l : List ℚ) (d : ℚ) : l.headD d = l.getD 0 d := by
  cases l <;> rfl

lemma pickInsert_step (t : ℕ) : (stepTrace t).filterMap pickInsert = [t] := rfl

lemma pickNoGrad_step (t : ℕ) : (stepTrace t).filterMap pickNoGrad = [] := rfl

lemma pickFeature_step (t : ℕ) : (stepTrace t).filterMap pickFeature = [t] := rfl

lemma pickInsert_flatMap (l : List ℕ) :
    (l.flatMap stepTrace).filterMap pickInsert = l := by
  induction l with
  | nil => rfl
  | cons a l ih =>
    simp [List.flatMap_cons, List.filterMap_append, pickInsert_step, ih]

lemma pickNoGrad_flatMap (l : List ℕ) :
    (l.flatMap stepTrace).filterMap pickNoGrad = [] := by
  induction l with
  | nil => rfl
  | cons a l ih =>
    simp [List.flatMap_cons, List.filterMap_append, pickNoGrad_step, ih]

lemma pickFeature_flatMap (l : List ℕ) :
    (l.flatMap stepTrace).filterMap pickFeature = l := by
  induction l with
  | nil => rfl
  | cons a l ih =>
    simp [List.flatMap_cons, List.filterMap_append, pickFeature_step, ih]

lemma length_flatMap_step (T : ℕ) :
    ((List.range T).flatMap stepTrace).length = 5 * T := by
  induction T with
  | zero => rfl
  | succ n ih =>
    rw [List.range_succ, List.flatMap_append, List.length_append, ih]
    simp [List.flatMap_cons, stepTrace]
    ring

lemma getElem?_flatMap_step (T t r : ℕ) (ht : t < T) (hr : r < 5) :
    ((List.range T).flatMap stepTrace)[5 * t + r]? = (stepTrace t)[r]? := by
  induction T with
  | zero => omega
  | succ n ih =>
    rw [List.range_succ, List.flatMap_append]
    by_cases h : t < n
    · rw [List.getElem?_append, if_pos (by rw [length_flatMap_step]; omega)]
      exact ih h
    · have ht' : t = n := by omega
      subst ht'
      rw [List.getElem?_append, if_neg (by rw [length_flatMap_step]; omega),
        length_flatMap_step, Nat.add_sub_cancel_left]
      simp [List.flatMap_cons]

lemma getElem?_rollout (T t r : ℕ) (ht : t < T) (hr : r < 5) :
    (rolloutTrace T)[5 * t + r]? = (stepTrace t)[r]? := by
  rw [rolloutTrace, List.getElem?_append,
    if_pos (by rw [length_flatMap_step]; omega)]
  exact getElem?_flatMap_step T t r ht hr

lemma length_rolloutTrace (T : ℕ) : (rolloutTrace T).length = 5 * T + 2 := by
  rw [rolloutTrace, List.length_append, length_flatMap_step]
  rfl

lemma getElem?_updateBlock_post (T r : ℕ) :
    (updateBlock T)[(rolloutTrace T).length + r]? = postRolloutTrace[r]? := by
  rw [updateBlock, List.getElem?_append_right (Nat.le_add_right _ _),
    Nat.add_sub_cancel_left]

lemma count_flatMap_zero (l : List ℕ) (f : ℕ → List Event) (e : Event)
    (h : ∀ t, (f t).count e = 0) : (l.flatMap f).count e = 0 := by
  induction l with
  | nil => rfl
  | cons a l ih => simp [List.flatMap_cons, List.count_append, h, ih]

lemma count_flatten_replicate (U : ℕ) (l : List Event) (e : Event) :
    ((List.replicate U l).flatten).count e = U * l.count e := by
  induction U with
  | zero => simp
  | succ k ih =>
    rw [List.replicate_succ, List.flatten_cons, List.count_append, ih]
    ring

lemma count_updateBlock (T : ℕ) (e : Event) (h : e ∉ rolloutTrace T) :
    (updateBlock T).count e = postRolloutTrace.count e := by
  rw [updateBlock, List.count_append, List.count_eq_zero.mpr h, Nat.zero_add]

lemma post_events_not_mem_rollout (T : ℕ) :
    Event.zeroGrad ∉ rolloutTrace T ∧ Event.icmForward ∉ rolloutTrace T ∧
    Event.readCoeff ∉ rolloutTrace T ∧
    Event.backward false ∉ rolloutTrace T ∧
    Event.backward true ∉ rolloutTrace T ∧
    Event.clipGradNorm ∉ rolloutTrace T ∧
    Event.optimizerStep ∉ rolloutTrace T ∧
    Event.coeffStep ∉ rolloutTrace T ∧ Event.envClose ∉ rolloutTrace T ∧
    Event.loggerSave ∉ rolloutTrace T ∧ Event.paramsSave ∉ rolloutTrace T := by
  refine ⟨?_, ?_, ?_, ?_, ?_, ?_, ?_, ?_, ?_, ?_, ?_⟩ <;>
    simp [rolloutTrace, List.mem_flatMap, stepTrace]

lemma coeffReadCounts_cons_other (e : Event) (es : List Event) (n : ℕ)
    (h1 : e ≠ Event.coeffStep) (h2 : e ≠ Event.readCoeff) :
    coeffReadCounts (e :: es) n = coeffReadCounts es n := by
  cases e <;> first
    | rfl
    | exact absurd rfl h1
    | exact absurd rfl h2

lemma coeffReadCounts_stepBlocks (l : List ℕ) (m : List Event) (n : ℕ) :
    coeffReadCounts (l.flatMap stepTrace ++ m) n = coeffReadCounts m n := by
  induction l with
  | nil => simp
  | cons a l ih =>
    simp only [List.flatMap_cons, List.append_assoc, stepTrace,
      List.cons_append]
    rw [coeffReadCounts_cons_other _ _ _ (by simp) (by simp),
      coeffReadCounts_cons_other _ _ _ (by simp) (by simp),
      coeffReadCounts_cons_other _ _ _ (by simp) (by simp),
      coeffReadCounts_cons_other _ _ _ (by simp) (by simp),
      coeffReadCounts_cons_other _ _ _ (by simp) (by simp)]
    exact ih

lemma coeffReadCounts_rollout (T : ℕ) (m : List Event) (n : ℕ) :
    coeffReadCounts (rolloutTrace T ++ m) n = coeffReadCounts m n := by
  rw [rolloutTrace, List.append_assoc, coeffReadCounts_stepBlocks,
    List.cons_append, List.cons_append,
    coeffReadCounts_cons_other _ _ _ (by simp) (by simp),
    coeffReadCounts_cons_other _ _ _ (by simp) (by simp), List.nil_append]

lemma coeffReadCounts_block (T : ℕ) (m : List Event) (n : ℕ) :
    coeffReadCounts (updateBlock T ++ m) n = n :: coeffReadCounts m (n + 1) := by
  rw [updateBlock, List.append_assoc, coeffReadCounts_rollout]
  rfl

lemma coeffReadCounts_aux (T : ℕ) : ∀ (U n : ℕ),
    coeffReadCounts ((List.replicate U (updateBlock T)).flatten ++ closeTrace)
      n = List.range' n U := by
  intro U
  induction U with
  | zero => intro n; rfl
  | succ k ih =>
    intro n
    rw [List.replicate_succ, List.flatten_cons, List.append_assoc,
      coeffReadCounts_block, ih, List.range'_succ]

lemma coeffReadCounts_trainTrace (T U : ℕ) :
    coeffReadCounts (trainTrace T U) 0 = List.range U := by
  rw [trainTrace]
  show coeffReadCounts
    ((List.replicate U (updateBlock T)).flatten ++ closeTrace) 0 = List.range U
  rw [coeffReadCounts_aux, List.range_eq_range']

/-! ## Claim theorems: loss assembly (C1, C2) -/

/-- C1: the claim states the subtracted curiosity term of the total
objective is the same forward-loss quantity that appears unweighted inside
the curiosity sum.  On the code this fails: with value_coeff = 0,
entropy_coeff = 0, curiosity_coeff = 1, zero a2c terms, a zero inverse
loss, recorded buffer features [3], ICM feature output [0] and prediction
[1], train.py's assembled loss is -3 while the spec's formula gives 0. -/
theorem c1_total_objective_counterexample :
    train_loss 0 0 1 (fun (_ : List ℚ) (_ : List ℤ) => (⟨0, 0⟩ : Dual))
      ⟨0, 0⟩ ⟨0, 0⟩ ⟨0, 0⟩ [⟨3, 0⟩] [⟨0, 0⟩] [⟨1, 0⟩]
      ([] : List ℚ) ([] : List ℤ) ≠
    spec_total_objective 0 0 1 ⟨0, 0⟩ ⟨0, 0⟩ ⟨0, 0⟩
      (loss_fwd [⟨0, 0⟩] [⟨1, 0⟩])
      ((fun (_ : List ℚ) (_ : List ℤ) => (⟨0, 0⟩ : Dual))
        ([] : List ℚ) ([] : List ℤ)) := by
  norm_num [train_loss, spec_total_objective, a2c_loss, icm_loss, loss_fwd,
    curiosity_loss, mse_loss, dmean, Dual.add, Dual.sub, Dual.scale,
    Dual.pow2, Dual.detach, Dual.mk.injEq]

/-- C1 amended: for every update, the total backward-propagated objective
equals policy_loss + value_coeff*value_loss - entropy_coeff*entropy
+ forward_loss + inverse_loss - curiosity_coeff*curiosity_loss, where the
subtracted curiosity_loss is the separately computed mean of
(recorded next-state feature - detached prediction)^2 over the buffer,
not the forward-loss quantity inside the curiosity sum. -/
theorem c1_total_objective_amended (vc ec cc : ℚ)
    (ce : List ℚ → List ℤ → Dual) (entropy p v : Dual)
    (tail feat pred : List Dual) (ap : List ℚ) (ac : List ℤ) :
    train_loss vc ec cc ce entropy p v tail feat pred ap ac =
    (((((p.add (Dual.scale vc v)).sub (Dual.scale ec entropy)).add
        (loss_fwd feat pred)).add (ce ap ac)).sub
      (Dual.scale cc (curiosity_loss tail pred))) := by
  simp only [train_loss, a2c_loss, icm_loss, Dual.add_assoc]

/-- C2: the claim states the curiosity forward loss is the MSE between the
prediction and the buffer's recorded next-state features with the recorded
features detached, gradient flowing only into the predictor.  On the code
this fails: the forward loss of icm_loss targets the ICM module's own
feature output (value 4 with module features [3], prediction [1], recorded
features [0], while the spec's formula gives 1), and seeding a derivative
through the feature embedding yields a nonzero forward-loss derivative, so
gradient does flow into the feature embedding. -/
theorem c2_forward_loss_counterexample :
    loss_fwd [⟨3, 0⟩] [⟨1, 0⟩] ≠ spec_forward_loss [⟨0, 0⟩] [⟨1, 0⟩] ∧
    (loss_fwd [⟨0, 1⟩] [⟨1, 0⟩]).der ≠ 0 := by
  constructor <;>
    norm_num [loss_fwd, spec_forward_loss, mse_loss, dmean, Dual.sub,
      Dual.pow2, Dual.detach, Dual.mk.injEq]

/-- C2 amended: the forward loss inside the curiosity sum is the MSE
between the predicted features and the curiosity module's own feature
output with neither side detached (so gradient flows into the feature
embedding: the derivative seeded through the features is -2 in the
concrete instance below); the detach appears instead in the separately
subtracted curiosity term, where the prediction, not the recorded buffer
features, is cut from the graph. -/
theorem c2_forward_loss_amended :
    (∀ (ce : List ℚ → List ℤ → Dual) (feats preds : List Dual)
      (ap : List ℚ) (ac : List ℤ),
      icm_loss ce feats preds ap ac = (mse_loss preds feats).add (ce ap ac)) ∧
    (∀ (tail pred : List Dual),
      curiosity_loss tail pred = curiosity_loss tail (pred.map Dual.detach)) ∧
    (loss_fwd [⟨0, 1⟩] [⟨1, 0⟩]).der = -2 := by
  refine ⟨fun ce feats preds ap ac => rfl, fun tail pred => ?_,
    by norm_num [loss_fwd, mse_loss, dmean, Dual.sub, Dual.pow2]⟩
  simp [curiosity_loss, List.map_map, detach_comp]

/-! ## Claim theorems: rollout and training-loop control flow (C4-C9) -/

/-- C4: for every rollout_size T > 0, one rollout phase performs exactly T
insert calls at indices 0..T-1, exactly one no-gradient agent query at
get_state(T), and writes the resulting feature into slot T, so the feature
table ends with T+1 filled entries (insert fills slot t per the
spec-modelled RolloutStorage contract). -/
theorem c4_rollout_counts (T : ℕ) (h : 1 ≤ T) :
    episode_rollout T = some (rolloutTrace T) ∧
    insertIndices (rolloutTrace T) = List.range T ∧
    noGradIndices (rolloutTrace T) = [T] ∧
    featureSlots (rolloutTrace T) = List.range (T + 1) ∧
    (featureSlots (rolloutTrace T)).length = T + 1 := by
  refine ⟨?_, ?_, ?_, ?_, ?_⟩
  · rw [episode_rollout, if_neg (by omega)]
  · rw [insertIndices, rolloutTrace, List.filterMap_append, pickInsert_flatMap]
    simp [pickInsert]
  · rw [noGradIndices, rolloutTrace, List.filterMap_append, pickNoGrad_flatMap]
    rfl
  · rw [featureSlots, rolloutTrace, List.filterMap_append,
      pickFeature_flatMap, List.range_succ]
    rfl
  · rw [featureSlots, rolloutTrace, List.filterMap_append,
      pickFeature_flatMap, List.length_append, List.length_range]
    rfl

/-- C4 witness at T = 3. -/
theorem c4_rollout_counts_witness :
    1 ≤ 3 ∧
    (episode_rollout 3 = some (rolloutTrace 3) ∧
     insertIndices (rolloutTrace 3) = List.range 3 ∧
     noGradIndices (rolloutTrace 3) = [3] ∧
     featureSlots (rolloutTrace 3) = List.range (3 + 1) ∧
     (featureSlots (rolloutTrace 3)).length = 3 + 1) :=
  ⟨by decide, c4_rollout_counts 3 (by decide)⟩

/-- C5: the coefficient schedule is stepped exactly once per update (one
coeffStep event per update block), strictly after the optimizer step
(optimizerStep sits at offset 6 past the rollout, coeffStep at offset 8,
and no coeffStep occurs among the events up to and including the
optimizer step), and the loss of update k reads the coefficient value as
of the start of update k: the k-th coefficient read in the training trace
happens with exactly k prior coefficient steps. -/
theorem c5_coeff_schedule (T U : ℕ) (h : 1 ≤ T) :
    train T U = some (trainTrace T U) ∧
    (updateBlock T).count Event.coeffStep = 1 ∧
    (updateBlock T)[(rolloutTrace T).length + 6]? = some Event.optimizerStep ∧
    (updateBlock T)[(rolloutTrace T).length + 8]? = some Event.coeffStep ∧
    ((updateBlock T).take ((rolloutTrace T).length + 7)).count
      Event.coeffStep = 0 ∧
    coeffReadCounts (trainTrace T U) 0 = List.range U := by
  refine ⟨?_, ?_, ?_, ?_, ?_, coeffReadCounts_trainTrace T U⟩
  · rw [train, if_neg (by omega)]
  · rw [count_updateBlock T _ (post_events_not_mem_rollout T).2.2.2.2.2.2.2.1]
    rfl
  · exact (getElem?_updateBlock_post T 6).trans rfl
  · exact (getElem?_updateBlock_post T 8).trans rfl
  · rw [updateBlock, List.take_append, List.count_append,
      List.count_eq_zero.mpr (post_events_not_mem_rollout T).2.2.2.2.2.2.2.1]
    rfl

/-- C5 witness at T = 1, U = 2. -/
theorem c5_coeff_schedule_witness :
    1 ≤ 1 ∧
    (train 1 2 = some (trainTrace 1 2) ∧
     (updateBlock 1).count Event.coeffStep = 1 ∧
     (updateBlock 1)[(rolloutTrace 1).length + 6]? = some Event.optimizerStep ∧
     (updateBlock 1)[(rolloutTrace 1).length + 8]? = some Event.coeffStep ∧
     ((updateBlock 1).take ((rolloutTrace 1).length + 7)).count
       Event.coeffStep = 0 ∧
     coeffReadCounts (trainTrace 1 2) 0 = List.range 2) :=
  ⟨by decide, c5_coeff_schedule 1 2 (by decide)⟩

/-- C6: every update performs, each exactly once and in this order,
zero_grad (at offset 0 past the rollout), backward with retain_graph
false (offset 3, and no backward-with-retain event exists), gradient-norm
clipping (offset 4), and the optimizer step (offset 6). -/
theorem c6_optimization_order (T U : ℕ) (h : 1 ≤ T) :
    train T U = some (trainTrace T U) ∧
    (updateBlock T).count Event.zeroGrad = 1 ∧
    (updateBlock T).count (Event.backward false) = 1 ∧
    (updateBlock T).count (Event.backward true) = 0 ∧
    (updateBlock T).count Event.clipGradNorm = 1 ∧
    (updateBlock T).count Event.optimizerStep = 1 ∧
    (updateBlock T)[(rolloutTrace T).length]? = some Event.zeroGrad ∧
    (updateBlock T)[(rolloutTrace T).length + 3]? =
      some (Event.backward false) ∧
    (updateBlock T)[(rolloutTrace T).length + 4]? =
      some Event.clipGradNorm ∧
    (updateBlock T)[(rolloutTrace T).length + 6]? =
      some Event.optimizerStep := by
  have hmem := post_events_not_mem_rollout T
  refine ⟨?_, ?_, ?_, ?_, ?_, ?_, ?_, ?_, ?_, ?_⟩
  · rw [train, if_neg (by omega)]
  · rw [count_updateBlock T _ hmem.1]; rfl
  · rw [count_updateBlock T _ hmem.2.2.2.1]; rfl
  · rw [count_updateBlock T _ hmem.2.2.2.2.1]; rfl
  · rw [count_updateBlock T _ hmem.2.2.2.2.2.1]; rfl
  · rw [count_updateBlock T _ hmem.2.2.2.2.2.2.1]; rfl
  · exact (getElem?_updateBlock_post T 0).trans rfl
  · exact (getElem?_updateBlock_post T 3).trans rfl
  · exact (getElem?_updateBlock_post T 4).trans rfl
  · exact (getElem?_updateBlock_post T 6).trans rfl

/-- C6 witness at T = 1, U = 1. -/
theorem c6_optimization_order_witness :
    1 ≤ 1 ∧
    (train 1 1 = some (trainTrace 1 1) ∧
     (updateBlock 1).count Event.zeroGrad = 1 ∧
     (updateBlock 1).count (Event.backward false) = 1 ∧
     (updateBlock 1).count (Event.backward true) = 0 ∧
     (updateBlock 1).count Event.clipGradNorm = 1 ∧
     (updateBlock 1).count Event.optimizerStep = 1 ∧
     (updateBlock 1)[(rolloutTrace 1).length]? = some Event.zeroGrad ∧
     (updateBlock 1)[(rolloutTrace 1).length + 3]? =
       some (Event.backward false) ∧
     (updateBlock 1)[(rolloutTrace 1).length + 4]? =
       some Event.clipGradNorm ∧
     (updateBlock 1)[(rolloutTrace 1).length + 6]? =
       some Event.optimizerStep) :=
  ⟨by decide, c6_optimization_order 1 1 (by decide)⟩

/-- C7: within a rollout, every step t runs env.step (position 5t+1),
inserts the transition (position 5t+3), then resets the recurrent buffers
with that step's done flags (position 5t+4), strictly before the next
agent query of the same rollout at position 5(t+1): the get_state call of
step t+1 when t+1 < T, and the no-gradient bootstrap query at get_state(T)
when t is the final step. -/
theorem c7_reset_before_next_get_state (T t : ℕ) (h : t < T) :
    (rolloutTrace T)[5 * t + 1]? = some (Event.envStep t) ∧
    (rolloutTrace T)[5 * t + 3]? = some (Event.insertStep t) ∧
    (rolloutTrace T)[5 * t + 4]? = some (Event.resetRecurrent t) ∧
    (rolloutTrace T)[5 * (t + 1)]? =
      some (if t + 1 < T then Event.getState (t + 1)
            else Event.getStateNoGrad (t + 1)) ∧
    5 * t + 3 < 5 * t + 4 ∧ 5 * t + 4 < 5 * (t + 1) := by
  refine ⟨?_, ?_, ?_, ?_, by omega, by omega⟩
  · exact (getElem?_rollout T t 1 (by omega) (by omega)).trans rfl
  · exact (getElem?_rollout T t 3 (by omega) (by omega)).trans rfl
  · exact (getElem?_rollout T t 4 (by omega) (by omega)).trans rfl
  · by_cases hlt : t + 1 < T
    · rw [if_pos hlt]
      exact (getElem?_rollout T (t + 1) 0 hlt (by omega)).trans rfl
    · have hTeq : T = t + 1 := by omega
      subst hTeq
      rw [if_neg (by omega), rolloutTrace,
        List.getElem?_append_right (by rw [length_flatMap_step]),
        length_flatMap_step, Nat.sub_self]
      rfl

/-- C7 witness at T = 1, t = 0, the final (and only) step of the rollout,
whose next agent query is the no-gradient bootstrap query. -/
theorem c7_reset_before_next_get_state_witness :
    0 < 1 ∧
    ((rolloutTrace 1)[5 * 0 + 1]? = some (Event.envStep 0) ∧
     (rolloutTrace 1)[5 * 0 + 3]? = some (Event.insertStep 0) ∧
     (rolloutTrace 1)[5 * 0 + 4]? = some (Event.resetRecurrent 0) ∧
     (rolloutTrace 1)[5 * (0 + 1)]? =
       some (if 0 + 1 < 1 then Event.getState (0 + 1)
             else Event.getStateNoGrad (0 + 1)) ∧
     5 * 0 + 3 < 5 * 0 + 4 ∧ 5 * 0 + 4 < 5 * (0 + 1)) :=
  ⟨by decide, c7_reset_before_next_get_state 1 0 (by decide)⟩

/-- C8: whenever the rollout size is positive (or no update runs at all),
the training loop completes: the trace is the environment reset, then the
U update blocks (exactly U optimizer steps, and none of the closing
calls), followed by env.close, logger.save and params.save, each
performed exactly once at the very end. -/
theorem c8_termination (T U : ℕ) (h : 1 ≤ T ∨ U = 0) :
    train T U = some (Event.envReset ::
      (List.replicate U (updateBlock T)).flatten ++ closeTrace) ∧
    ((List.replicate U (updateBlock T)).flatten).count
      Event.optimizerStep = U ∧
    ((List.replicate U (updateBlock T)).flatten).count Event.envClose = 0 ∧
    ((List.replicate U (updateBlock T)).flatten).count Event.loggerSave = 0 ∧
    ((List.replicate U (updateBlock T)).flatten).count Event.paramsSave = 0 ∧
    (trainTrace T U).count Event.envClose = 1 ∧
    (trainTrace T U).count Event.loggerSave = 1 ∧
    (trainTrace T U).count Event.paramsSave = 1 := by
  have hmem := post_events_not_mem_rollout T
  have hopt : (updateBlock T).count Event.optimizerStep = 1 := by
    rw [count_updateBlock T _ hmem.2.2.2.2.2.2.1]; rfl
  have hclose : (updateBlock T).count Event.envClose = 0 := by
    rw [count_updateBlock T _ hmem.2.2.2.2.2.2.2.2.1]; rfl
  have hlog : (updateBlock T).count Event.loggerSave = 0 := by
    rw [count_updateBlock T _ hmem.2.2.2.2.2.2.2.2.2.1]; rfl
  have hpar : (updateBlock T).count Event.paramsSave = 0 := by
    rw [count_updateBlock T _ hmem.2.2.2.2.2.2.2.2.2.2]; rfl
  refine ⟨by rw [train, if_neg (by omega)]; rfl, ?_, ?_, ?_, ?_, ?_, ?_, ?_⟩
  · rw [count_flatten_replicate, hopt]; ring
  · rw [count_flatten_replicate, hclose]; ring
  · rw [count_flatten_replicate, hlog]; ring
  · rw [count_flatten_replicate, hpar]; ring
  · simp [trainTrace, List.count_append, List.count_cons,
      count_flatten_replicate, hclose, closeTrace]
  · simp [trainTrace, List.count_append, List.count_cons,
      count_flatten_replicate, hlog, closeTrace]
  · simp [trainTrace, List.count_append, List.count_cons,
      count_flatten_replicate, hpar, closeTrace]

/-- C8 witness at T = 1, U = 2. -/
theorem c8_termination_witness :
    (1 ≤ 1 ∨ (2 : ℕ) = 0) ∧
    (train 1 2 = some (Event.envReset ::
       (List.replicate 2 (updateBlock 1)).flatten ++ closeTrace) ∧
     ((List.replicate 2 (updateBlock 1)).flatten).count
       Event.optimizerStep = 2 ∧
     ((List.replicate 2 (updateBlock 1)).flatten).count Event.envClose = 0 ∧
     ((List.replicate 2 (updateBlock 1)).flatten).count
       Event.loggerSave = 0 ∧
     ((List.replicate 2 (updateBlock 1)).flatten).count
       Event.paramsSave = 0 ∧
     (trainTrace 1 2).count Event.envClose = 1 ∧
     (trainTrace 1 2).count Event.loggerSave = 1 ∧
     (trainTrace 1 2).count Event.paramsSave = 1) :=
  ⟨Or.inl (by decide), c8_termination 1 2 (Or.inl (by decide))⟩

/-- C9: episode_rollout requires rollout_size at least 1: with
rollout_size = 0 the loop body never binds the loop variable, the
bootstrap query at line 135 hits an unbound name, and the rollout fails
(returns none) instead of producing a bootstrap value; for every positive
size it succeeds. -/
theorem c9_zero_rollout_fails :
    episode_rollout 0 = none ∧
    (∀ T : ℕ, episode_rollout T = none ↔ T = 0) := by
  refine ⟨rfl, fun T => ?_⟩
  by_cases h : T = 0
  · subst h
    simp [episode_rollout]
  · simp [episode_rollout, h]

/-! ## Claim theorems: return computation (C3) and the seed field (C10) -/

lemma computeReturns_length (g v : ℚ) (l : List (ℚ × ℚ)) :
    (computeReturns g v l).length = l.length := by
  induction l with
  | nil => rfl
  | cons p rest ih =>
    cases p
    simp [computeReturns, ih]

lemma computeReturns_getD (g v : ℚ) :
    ∀ (l : List (ℚ × ℚ)) (t : ℕ), t < l.length →
    (computeReturns g v l).getD t 0 =
      (l.getD t (0, 0)).1 +
        g * (computeReturns g v l).getD (t + 1) v * (1 - (l.getD t (0, 0)).2) := by
  intro l
  induction l with
  | nil =>
    intro t h
    simp at h
  | cons p rest ih =>
    intro t h
    cases p with
    | mk r d =>
      cases t with
      | zero =>
        simp only [computeReturns, List.getD_cons_zero, List.getD_cons_succ,
          headD_eq_getD]
      | succ t =>
        simp only [computeReturns, List.getD_cons_succ]
        exact ih t (by simpa using h)

lemma getD_map_pair (steps : List StepData) (t : ℕ) (d : StepData) :
    (steps.map fun s => (s.reward, s.done)).getD t (d.reward, d.done) =
      ((steps.getD t d).reward, (steps.getD t d).done) := by
  induction steps generalizing t with
  | nil => cases t <;> rfl
  | cons a l ih =>
    cases t with
    | zero => rfl
    | succ t =>
      rw [List.map_cons, List.getD_cons_succ, List.getD_cons_succ]
      exact ih t

/-- C3 (spec-modelled, storage.py not under src/): the return computation
seeded with the bootstrap value satisfies
R_t = reward_t + gamma * R_(t+1) * (1 - done_t) with R_T = final_value,
the advantage is A_t = R_t - value_t, the policy loss is
-mean(log_prob_t * A_t) and the value loss is mean(A_t^2); a done_t = 1
zeroes the bootstrap term, so with rewards [1,1], done [1,0],
final_value 5 and gamma 9/10 the returns are R_0 = 1 and R_1 = 11/2. -/
theorem c3_return_computation (gamma final_value : ℚ)
    (steps : List StepData) (t : ℕ) (h : t < steps.length) :
    (computeReturns gamma final_value
        (steps.map fun s => (s.reward, s.done))).length = steps.length ∧
    (computeReturns gamma final_value
        (steps.map fun s => (s.reward, s.done))).getD t 0 =
      (steps.getD t ⟨0, 0, 0, 0⟩).reward +
        gamma * (computeReturns gamma final_value
          (steps.map fun s => (s.reward, s.done))).getD (t + 1) final_value *
          (1 - (steps.getD t ⟨0, 0, 0, 0⟩).done) ∧
    storage_a2c_loss gamma final_value steps =
      (-(qmean (List.zipWith (fun s A => s.log_prob * A) steps
          (List.zipWith (fun R s => R - s.value)
            (computeReturns gamma final_value
              (steps.map fun s => (s.reward, s.done))) steps))),
       qmean ((List.zipWith (fun R s => R - s.value)
          (computeReturns gamma final_value
            (steps.map fun s => (s.reward, s.done))) steps).map
          fun A => A * A)) ∧
    computeReturns (9 / 10) 5 [(1, 1), (1, 0)] = [1, 11 / 2] := by
  refine ⟨?_, ?_, rfl, ?_⟩
  · rw [computeReturns_length, List.length_map]
  · have hm : t < (steps.map fun s => (s.reward, s.done)).length := by
      rw [List.length_map]; exact h
    have := computeReturns_getD gamma final_value
      (steps.map fun s => (s.reward, s.done)) t hm
    rw [this, show ((0 : ℚ), (0 : ℚ)) =
      ((⟨0, 0, 0, 0⟩ : StepData).reward, (⟨0, 0, 0, 0⟩ : StepData).done)
      from rfl, getD_map_pair]
  · norm_num [computeReturns]

/-- C3 witness at the spec's done-boundary example. -/
theorem c3_return_computation_witness :
    1 < ([⟨1, 1, 0, 0⟩, ⟨1, 0, 0, 0⟩] : List StepData).length ∧
    ((computeReturns (9 / 10) 5
        (([⟨1, 1, 0, 0⟩, ⟨1, 0, 0, 0⟩] : List StepData).map
          fun s => (s.reward, s.done))).length =
        ([⟨1, 1, 0, 0⟩, ⟨1, 0, 0, 0⟩] : List StepData).length ∧
     (computeReturns (9 / 10) 5
        (([⟨1, 1, 0, 0⟩, ⟨1, 0, 0, 0⟩] : List StepData).map
          fun s => (s.reward, s.done))).getD 1 0 =
       (([⟨1, 1, 0, 0⟩, ⟨1, 0, 0, 0⟩] : List StepData).getD 1
          ⟨0, 0, 0, 0⟩).reward +
         9 / 10 * (computeReturns (9 / 10) 5
            (([⟨1, 1, 0, 0⟩, ⟨1, 0, 0, 0⟩] : List StepData).map
              fun s => (s.reward, s.done))).getD (1 + 1) 5 *
           (1 - (([⟨1, 1, 0, 0⟩, ⟨1, 0, 0, 0⟩] : List StepData).getD 1
              ⟨0, 0, 0, 0⟩).done) ∧
     storage_a2c_loss (9 / 10) 5
         ([⟨1, 1, 0, 0⟩, ⟨1, 0, 0, 0⟩] : List StepData) =
       (-(qmean (List.zipWith (fun s A => s.log_prob * A)
            ([⟨1, 1, 0, 0⟩, ⟨1, 0, 0, 0⟩] : List StepData)
            (List.zipWith (fun R s => R - s.value)
              (computeReturns (9 / 10) 5
                (([⟨1, 1, 0, 0⟩, ⟨1, 0, 0, 0⟩] : List StepData).map
                  fun s => (s.reward, s.done)))
              ([⟨1, 1, 0, 0⟩, ⟨1, 0, 0, 0⟩] : List StepData)))),
        qmean ((List.zipWith (fun R s => R - s.value)
            (computeReturns (9 / 10) 5
              (([⟨1, 1, 0, 0⟩, ⟨1, 0, 0, 0⟩] : List StepData).map
                fun s => (s.reward, s.done)))
            ([⟨1, 1, 0, 0⟩, ⟨1, 0, 0, 0⟩] : List StepData)).map
          fun A => A * A)) ∧
     computeReturns (9 / 10) 5 [(1, 1), (1, 0)] = [1, 11 / 2]) :=
  ⟨by decide, c3_return_computation (9 / 10) 5
    [⟨1, 1, 0, 0⟩, ⟨1, 0, 0, 0⟩] 1 (by decide)⟩

/-- C10: the seed constructor argument is stored by Runner.__init__ and
never read by any operation: two runners built from inputs differing only
in the seed agree on everything Runner.__init__ computes (logger
arguments, storage arguments, the cuda flag) and on the full control-flow
trace of Runner.train. -/
theorem c10_seed_noninterference (p : Params) (is_cuda cuda_available : Bool)
    (s1 s2 : ℤ) (ts ld : String) :
    (Runner.init p is_cuda cuda_available s1 ts ld).seed = s1 ∧
    (Runner.init p is_cuda cuda_available s1 ts ld).loggerArgs =
      (Runner.init p is_cuda cuda_available s2 ts ld).loggerArgs ∧
    (Runner.init p is_cuda cuda_available s1 ts ld).storageArgs =
      (Runner.init p is_cuda cuda_available s2 ts ld).storageArgs ∧
    (Runner.init p is_cuda cuda_available s1 ts ld).is_cuda =
      (Runner.init p is_cuda cuda_available s2 ts ld).is_cuda ∧
    (Runner.init p is_cuda cuda_available s1 ts ld).trainEvents =
      (Runner.init p is_cuda cuda_available s2 ts ld).trainEvents :=
  ⟨rfl, rfl, rfl, rfl, rfl⟩

end AttA2C
